import Mathlib

/-!
Verification of the Websocket-Rust repository's protocol engine against its
natural-language specification.  The repository ships only headers under
`src/include`; the frame codec, byte stream, HTTP helper, handshake and
connection state machine are declared there but implemented in translation
units that are not part of the source tree.  Where an implementation is
present in the headers (`ws_settings_init`, `ws_settings_destroy`) the Lean
definitions are translated from that code; everywhere else they are modelled
from the specification, as indicated by each doc comment.

Bytes are modelled as `Nat` values below 256, byte sequences as `List Nat`,
and machine words as `Nat` with explicit reductions modulo `2 ^ w`.
-/

namespace WsProof

/-! ## Big-endian serialization helpers (spec §4.B: host_to_network = big-endian) -/

/-- Modelled from the spec: big-endian serialization of `n` into `k` bytes
(`host_to_network_*` of the Endian component, used by the frame codec for the
16-bit and 64-bit extended payload lengths and the 32-bit mask key). -/

def beBytes : Nat → Nat → List Nat
  | 0, _ => []
  | k + 1, n => beBytes k (n / 256) ++ [n % 256]

/-- Modelled from the spec: big-endian deserialization, folding bytes most
significant first. -/

def beVal (bs : List Nat) : Nat :=
  bs.foldl (fun a b => a * 256 + b) 0

/-! ## Masking (spec §4.E: `mask(key)` XORs the payload with the four key
bytes, indexed by payload position mod 4) -/

/-- Modelled from the spec: byte `i mod 4` of the 32-bit mask key, key bytes
in big-endian (wire) order. -/

def keyByte (key i : Nat) : Nat :=
  key / 256 ^ (3 - i % 4) % 256

/-- Modelled from the spec: XOR the payload starting at position `i` with the
repeating key bytes. -/

def maskFrom (key i : Nat) : List Nat → List Nat
  | [] => []
  | b :: rest => (b ^^^ keyByte key i) :: maskFrom key (i + 1) rest

/-- Modelled from the spec: `c_ws_frame::mask` applied to a payload, XORing
byte `i` with key byte `i mod 4`. -/

def maskPayload (key : Nat) (p : List Nat) : List Nat :=
  maskFrom key 0 p

/-! ## Frame codec (spec §4.E, `c_ws_frame::write` / `c_ws_frame::read`) -/

/-- Modelled from the spec: the attributes of a WebSocket frame held by
`c_ws_frame` (§3 Data Model): FIN, RSV1..3, 4-bit opcode, mask flag, 32-bit
mask key and payload bytes. -/

structure Frame where
  fin : Bool
  rsv1 : Bool
  rsv2 : Bool
  rsv3 : Bool
  opcode : Nat
  masked : Bool
  maskKey : Nat
  payload : List Nat
deriving DecidableEq, Repr

/-- Modelled from the spec: choose the 7-bit length field and the extended
length bytes by payload size (`< 126` direct, `≤ 0xFFFF` as u16 BE after 126,
else u64 BE after 127). -/

def lenFields (n : Nat) : Nat × List Nat :=
  if n < 126 then (n, [])
  else if n ≤ 0xFFFF then (126, beBytes 2 n)
  else (127, beBytes 8 n)

/-- Modelled from the spec: first header byte — FIN, RSV1..3 and the 4-bit
opcode. -/

def hdrByte0 (f : Frame) : Nat :=
  (cond f.fin 128 0) + (cond f.rsv1 64 0) + (cond f.rsv2 32 0) +
    (cond f.rsv3 16 0) + f.opcode % 16

/-- Modelled from the spec: second header byte — MASK bit and the 7-bit
length field. -/

def hdrByte1 (f : Frame) : Nat :=
  (cond f.masked 128 0) + (lenFields f.payload.length).1

/-- Modelled from the spec: `c_ws_frame::write` serializes header bits, the
length encoding, the mask key when masked, and the (masked) payload.  The
model uses the frame's stored mask key rather than generating a random one. -/

def write (f : Frame) : List Nat :=
  hdrByte0 f :: hdrByte1 f :: (lenFields f.payload.length).2 ++
    (if f.masked then beBytes 4 f.maskKey ++ maskPayload f.maskKey f.payload
     else f.payload)

/-- Modelled from the spec: result of `c_ws_frame::read` restricted to the
statuses the decode path can produce (`e_ws_frame_status`):
`status_incomplete` when more bytes are needed, `status_invalid_data` on a
violation, otherwise the decoded frame and the unconsumed rest of the input
(`incomplete` consumes nothing). -/

inductive ReadResult where
  | incomplete
  | invalid
  | ok (f : Frame) (rest : List Nat)
deriving DecidableEq, Repr

/-- Modelled from the spec: the fixed header after length decoding. -/

structure Header where
  fin : Bool
  rsv1 : Bool
  rsv2 : Bool
  rsv3 : Bool
  opcode : Nat
  masked : Bool
  len : Nat
deriving DecidableEq, Repr

/-- Modelled from the spec: result of parsing the first two header bytes and
the extended payload length. -/

inductive HeaderResult where
  | incomplete
  | invalid
  | ok (h : Header) (rest : List Nat)
deriving DecidableEq, Repr

/-- Modelled from the spec: decode steps 1–3 of §4.E — require two bytes,
extract FIN/RSV/opcode and MASK/length-7, then read the 16- or 64-bit
extended length (the 64-bit form must have its high bit zero). -/

def parseHeader (input : List Nat) : HeaderResult :=
  if input.length < 2 then .incomplete
  else
    let b0 := input.getD 0 0
    let b1 := input.getD 1 0
    let fin := b0 / 128 % 2 = 1
    let rsv1 := b0 / 64 % 2 = 1
    let rsv2 := b0 / 32 % 2 = 1
    let rsv3 := b0 / 16 % 2 = 1
    let opcode := b0 % 16
    let masked := b1 / 128 % 2 = 1
    let len7 := b1 % 128
    let rest := input.drop 2
    if len7 < 126 then
      .ok ⟨fin, rsv1, rsv2, rsv3, opcode, masked, len7⟩ rest
    else if len7 = 126 then
      if rest.length < 2 then .incomplete
      else .ok ⟨fin, rsv1, rsv2, rsv3, opcode, masked, beVal (rest.take 2)⟩ (rest.drop 2)
    else
      if rest.length < 8 then .incomplete
      else if 128 ≤ rest.getD 0 0 % 256 then .invalid
      else .ok ⟨fin, rsv1, rsv2, rsv3, opcode, masked, beVal (rest.take 8)⟩ (rest.drop 8)

/-- Modelled from the spec: decode steps 4–6 of §4.E — read the four mask-key
bytes when MASK is set, require the whole payload, and unmask it in place. -/

def readPayload (h : Header) (rest : List Nat) : ReadResult :=
  if h.masked then
    if rest.length < 4 + h.len then .incomplete
    else
      let key := beVal (rest.take 4)
      .ok ⟨h.fin, h.rsv1, h.rsv2, h.rsv3, h.opcode, true, key,
        maskPayload key ((rest.drop 4).take h.len)⟩ ((rest.drop 4).drop h.len)
  else
    if rest.length < h.len then .incomplete
    else
      .ok ⟨h.fin, h.rsv1, h.rsv2, h.rsv3, h.opcode, false, 0,
        rest.take h.len⟩ (rest.drop h.len)

/-- Modelled from the spec: `c_ws_frame::read`, the full decode pipeline. -/

def read (input : List Nat) : ReadResult :=
  match parseHeader input with
  | .incomplete => .incomplete
  | .invalid => .invalid
  | .ok h rest => readPayload h rest

/-! ### Decoding an encoded frame -/

/-- The header stored in a frame, as the decoder recovers it. -/

def frameHeader (f : Frame) : Header :=
  ⟨f.fin, f.rsv1, f.rsv2, f.rsv3, f.opcode, f.masked, f.payload.length⟩

/-! ## Settings (`src/include/websocket/defs/socketDefs.h`, real inline code) -/

/-- Translated from the source: `e_ws_endpoint_type` of `socketDefs.h`. -/

inductive e_ws_endpoint_type where
  | endpoint_server
  | endpoint_client
deriving DecidableEq, Repr

/-- Translated from the source: `e_ws_mode` of `socketDefs.h`. -/

inductive e_ws_mode where
  | mode_unsecured
  | mode_secured
deriving DecidableEq, Repr

/-- Translated from the source: the `permessage_deflate` member of
`ws_extensions_t`. -/

structure ws_permessage_deflate_t where
  enabled : Bool
  window_bits : Nat
deriving DecidableEq, Repr

/-- Translated from the source: `ws_extensions_t` of `socketDefs.h`. -/

structure ws_extensions_t where
  permessage_deflate : ws_permessage_deflate_t
deriving DecidableEq, Repr

/-- Translated from the source: `ws_settings_t` of `socketDefs.h`.  The six
`char *` members are modelled as `Option String`, `NULL` being `none`. -/

structure ws_settings_t where
  endpoint : e_ws_endpoint_type
  mode : e_ws_mode
  read_timeout : Nat
  poll_timeout : Nat
  ssl_seed : Option String
  ssl_ca_cert : Option String
  ssl_own_cert : Option String
  ssl_private_key : Option String
  fd_limit : Nat
  host : Option String
  allowed_origin : Option String
  ping_interval : Nat
  ping_timeout : Nat
  message_limit : Nat
  auto_mask_frame : Bool
  extensions : ws_extensions_t
deriving DecidableEq, Repr

/-- Translated from the source: `ws_settings_init` of `socketDefs.h`, which
assigns a default to every field of the record it is given. -/

def ws_settings_init (_s : ws_settings_t) : ws_settings_t :=
  { endpoint := .endpoint_server
    mode := .mode_unsecured
    read_timeout := 0
    poll_timeout := 0
    ssl_seed := none
    ssl_ca_cert := none
    ssl_own_cert := none
    ssl_private_key := none
    fd_limit := 0
    host := none
    allowed_origin := none
    ping_interval := 60 * 1000
    ping_timeout := 30 * 1000
    message_limit := 4 * 1024 * 1024
    auto_mask_frame := true
    extensions := ⟨⟨false, 15⟩⟩ }

/-- Translated from the source: `ws_settings_destroy` of `socketDefs.h`,
which frees the six heap-allocated string members (each guarded by a null
check) and nulls the pointers, leaving every other field untouched. -/

def ws_settings_destroy (s : ws_settings_t) : ws_settings_t :=
  { s with
    ssl_seed := none
    ssl_ca_cert := none
    ssl_own_cert := none
    ssl_private_key := none
    host := none
    allowed_origin := none }

/-! ## UTF-8 validation and text-message delivery (spec §4.A table, §4.F) -/

/-- Modelled from the spec: the UTF-8 validity scan of `is_payload_utf8` /
`c_byte_stream::is_utf8` — the first byte determines the continuation
length, each continuation byte must match `10xxxxxx`, and sequences encoding
a surrogate (U+D800..U+DFFF), an overlong form, or a codepoint above
U+10FFFF are invalid. -/

def utf8Valid : List Nat → Bool
  | [] => true
  | b :: rest =>
    if b < 0x80 then utf8Valid rest
    else if b < 0xC0 then false
    else if b < 0xE0 then
      match rest with
      | c1 :: rest2 =>
        if c1 / 64 = 2 then
          let cp := (b % 32) * 64 + c1 % 64
          if cp < 0x80 then false else utf8Valid rest2
        else false
      | [] => false
    else if b < 0xF0 then
      match rest with
      | c1 :: c2 :: rest2 =>
        if c1 / 64 = 2 && c2 / 64 = 2 then
          let cp := (b % 16) * 4096 + (c1 % 64) * 64 + c2 % 64
          if cp < 0x800 then false
          else if 0xD800 ≤ cp && cp ≤ 0xDFFF then false
          else utf8Valid rest2
        else false
      | _ => false
    else if b < 0xF8 then
      match rest with
      | c1 :: c2 :: c3 :: rest2 =>
        if c1 / 64 = 2 && c2 / 64 = 2 && c3 / 64 = 2 then
          let cp := (b % 8) * 262144 + (c1 % 64) * 4096 + (c2 % 64) * 64 + c3 % 64
          if cp < 0x10000 then false
          else if 0x10FFFF < cp then false
          else utf8Valid rest2
        else false
      | _ => false
    else false

/-- Modelled from the spec: the outcome of finishing a reassembled message in
the OPEN state (§4.F) — either the message is delivered to `on_frame`, or
the connection is closed with an RFC 6455 status code. -/

inductive MsgOutcome where
  | frame (opcode : Nat) (payload : List Nat)
  | close (code : Nat)
deriving DecidableEq, Repr

/-- Modelled from the spec: completing a message whose first frame had the
given opcode and RSV1 bit (permessage-deflate not negotiated): a text
message (opcode 1) with RSV1 clear must be valid UTF-8, otherwise the
connection closes with 1007 (`closure_invalid_data`); a valid message is
delivered to `on_frame`. -/

def finishMessage (firstOpcode : Nat) (rsv1 : Bool) (payload : List Nat) :
    MsgOutcome :=
  if firstOpcode = 1 && !rsv1 then
    if utf8Valid payload then .frame firstOpcode payload
    else .close 1007
  else .frame firstOpcode payload

/-! ## Byte stream operations (spec §4.A, `c_byte_stream`) -/

/-- Modelled from the spec: the `c_byte_stream::npos` sentinel, `~0` on a
64-bit system. -/

def npos : Nat := 2 ^ 64 - 1

/-- Modelled from the spec: `pull(dst, n, off)` copies up to `n` bytes
starting at `off` from the front and removes them, reporting the actual
count; the result is (bytes copied out, remaining stream). -/

def pull (s : List Nat) (n off : Nat) : List Nat × List Nat :=
  ((s.drop off).take n, s.take off ++ (s.drop off).drop n)

/-- Modelled from the spec: `pull_back`, analogous to `pull` but taking the
bytes from the tail (offset counted from the back). -/

def pull_back (s : List Nat) (n off : Nat) : List Nat × List Nat :=
  let r := pull s.reverse n off
  (r.1.reverse, r.2.reverse)

/-- Modelled from the spec: `pop(n)` discards up to `n` bytes from the
front, reporting how many were discarded. -/

def pop (s : List Nat) (n : Nat) : List Nat × Nat :=
  (s.drop n, min n s.length)

/-- Modelled from the spec: `pop_back(n)` discards up to `n` bytes from the
tail, reporting how many were discarded. -/

def pop_back (s : List Nat) (n : Nat) : List Nat × Nat :=
  (s.take (s.length - n), min n s.length)

/-- Modelled from the spec: forward scan for a byte value, from position `i`
up to the exclusive bound `e`, returning `npos` when not found. -/

def scanFrom (v e : Nat) : List Nat → Nat → Nat
  | [], _ => npos
  | b :: rest, i =>
    if e ≤ i then npos
    else if b = v then i
    else scanFrom v e rest (i + 1)

/-- Modelled from the spec: `index_of(byte, off, end)` — the position of the
first occurrence of the byte in `[off, min end size)`, or `npos`. -/

def index_of (s : List Nat) (v off e : Nat) : Nat :=
  scanFrom v (min e s.length) (s.drop off) off

/-- Modelled from the spec: backward scan keeping the last match seen. -/

def scanBackFrom (v e : Nat) : List Nat → Nat → Nat → Nat
  | [], _, best => best
  | b :: rest, i, best =>
    if e ≤ i then best
    else scanBackFrom v e rest (i + 1) (if b = v then i else best)

/-- Modelled from the spec: `index_of_back(byte, off, end)` — the position
of the last occurrence of the byte in `[off, min end size)`, or `npos`. -/

def index_of_back (s : List Nat) (v off e : Nat) : Nat :=
  scanBackFrom v (min e s.length) (s.drop off) off npos

/-! ## Connection lifecycle (spec §4.F state machine, §7 pairing guarantee) -/

/-- Modelled from the spec: the per-connection states of §4.F
(`CONNECTING → HANDSHAKE_SEND → HANDSHAKE_WAIT → OPEN → CLOSING → CLOSED`,
the server path starting at `HANDSHAKE_WAIT`); `closedSt` is the terminal
state in which the connection is removed from the table and destroyed. -/

inductive ConnState where
  | connecting
  | handshakeSend
  | handshakeWait
  | opened
  | closing
  | closedSt
deriving DecidableEq, Repr

/-- Modelled from the spec: the user-visible callback events fired by the
dispatcher (`on_open`, `on_frame`, `on_error`, `on_close` with its closure
code). -/

inductive Ev where
  | evOpen
  | evFrame
  | evError
  | evClose (code : Nat)
deriving DecidableEq, Repr

/-- Whether an event is an `on_close` invocation. -/

def isCloseEv : Ev → Bool
  | .evClose _ => true
  | _ => false

/-- The number of `on_close` invocations in an event list. -/

def countClose (evs : List Ev) : Nat :=
  (evs.filter isCloseEv).length

/-- Modelled from the spec: the transitions of the §4.F connection state
machine, each labelled with the callback events it fires.  `on_open` fires
exactly on the transition into OPEN; `on_close` fires exactly on a
transition into CLOSED (handshake failure, heartbeat death, or completion
of the closing handshake); CLOSED has no outgoing transitions. -/

inductive connStep : ConnState → List Ev → ConnState → Prop where
  | startSend : connStep .connecting [] .handshakeSend
  | sendRequest : connStep .handshakeSend [] .handshakeWait
  | handshakeOk : connStep .handshakeWait [.evOpen] .opened
  | handshakeFail (c : Nat) : connStep .handshakeWait [.evError, .evClose c] .closedSt
  | dataFrame : connStep .opened [.evFrame] .opened
  | controlFrame : connStep .opened [] .opened
  | closeStart : connStep .opened [] .closing
  | heartbeatDead : connStep .opened [.evClose 1006] .closedSt
  | closingDone (c : Nat) : connStep .closing [.evClose c] .closedSt

/-- Modelled from the spec: a run of the connection state machine,
accumulating the fired events in order. -/

inductive connTrace : ConnState → List Ev → ConnState → Prop where
  | refl (s : ConnState) : connTrace s [] s
  | step {s t u : ConnState} {evs evs2 : List Ev} :
      connStep s evs t → connTrace t evs2 u → connTrace s (evs ++ evs2) u

/-! ## Handshake secret (spec §4.D, `c_ws_handshake::secret`) -/

/-- Modelled from the spec: 32-bit left rotation used by SHA-1. -/

def rotl32 (x n : Nat) : Nat := ((x <<< n) ||| (x >>> (32 - n))) % 2 ^ 32

/-- Modelled from the spec: group bytes into big-endian 32-bit words. -/

def bytesToWords : List Nat → List Nat
  | a :: b :: c :: d :: rest =>
    (((a * 256 + b) * 256 + c) * 256 + d) :: bytesToWords rest
  | _ => []

/-- Modelled from the spec: extend the 16 words of a SHA-1 block to 80. -/

def extendLoop : Nat → List Nat → List Nat
  | 0, w => w
  | k + 1, w =>
    let n := w.length
    extendLoop k (w ++ [rotl32 ((w.getD (n - 3) 0) ^^^ (w.getD (n - 8) 0) ^^^
      (w.getD (n - 14) 0) ^^^ (w.getD (n - 16) 0)) 1])

/-- Modelled from the spec: the SHA-1 round function. -/

def sha1F (t b c d : Nat) : Nat :=
  if t < 20 then (b &&& c) ||| ((b ^^^ 0xFFFFFFFF) &&& d)
  else if t < 40 then b ^^^ c ^^^ d
  else if t < 60 then (b &&& c) ||| (b &&& d) ||| (c &&& d)
  else b ^^^ c ^^^ d

/-- Modelled from the spec: the SHA-1 round constants. -/

def sha1K (t : Nat) : Nat :=
  if t < 20 then 0x5A827999 else if t < 40 then 0x6ED9EBA1
  else if t < 60 then 0x8F1BBCDC else 0xCA62C1D6

/-- Modelled from the spec: one SHA-1 compression round, the round index
carried in the state. -/

def sha1Round (st : Nat × Nat × Nat × Nat × Nat × Nat) (w : Nat) :
    Nat × Nat × Nat × Nat × Nat × Nat :=
  let (t, a, b, c, d, e) := st
  (t + 1, (rotl32 a 5 + sha1F t b c d + e + sha1K t + w) % 2 ^ 32, a,
    rotl32 b 30, c, d)

/-- Modelled from the spec: the SHA-1 compression function over one 64-byte
block. -/

def sha1Block (h : List Nat) (block : List Nat) : List Nat :=
  let ws := extendLoop 64 (bytesToWords block)
  let h0 := h.getD 0 0
  let h1 := h.getD 1 0
  let h2 := h.getD 2 0
  let h3 := h.getD 3 0
  let h4 := h.getD 4 0
  let fin := ws.foldl sha1Round (0, h0, h1, h2, h3, h4)
  [(h0 + fin.2.1) % 2 ^ 32, (h1 + fin.2.2.1) % 2 ^ 32,
    (h2 + fin.2.2.2.1) % 2 ^ 32, (h3 + fin.2.2.2.2.1) % 2 ^ 32,
    (h4 + fin.2.2.2.2.2) % 2 ^ 32]

/-- Modelled from the spec: SHA-1 padding — `0x80`, zeros, and the bit
length as a 64-bit big-endian integer, to a multiple of 64 bytes. -/

def sha1Pad (msg : List Nat) : List Nat :=
  let len := msg.length
  let zeros := (64 - (len + 9) % 64) % 64
  msg ++ [0x80] ++ List.replicate zeros 0 ++ beBytes 8 (len * 8)

/-- Modelled from the spec: fold the compression function over the padded
blocks (fuel is the number of 64-byte blocks). -/

def sha1Blocks : Nat → List Nat → List Nat → List Nat
  | 0, h, _ => h
  | fuel + 1, h, bytes =>
    if bytes.isEmpty then h
    else sha1Blocks fuel (sha1Block h (bytes.take 64)) (bytes.drop 64)

/-- Modelled from the spec: the SHA-1 hash of a byte sequence (the SHA-1
collaborator of §1, out of scope in the source tree), as 20 bytes. -/

def sha1 (msg : List Nat) : List Nat :=
  let padded := sha1Pad msg
  let h := sha1Blocks (padded.length / 64)
    [0x67452301, 0xEFCDAB89, 0x98BADCFE, 0x10325476, 0xC3D2E1F0] padded
  h.foldr (fun w acc => beBytes 4 w ++ acc) []

/-- Modelled from the spec: the base64 alphabet, by 6-bit value. -/

def b64Char (n : Nat) : Nat :=
  if n < 26 then 65 + n
  else if n < 52 then 97 + (n - 26)
  else if n < 62 then 48 + (n - 52)
  else if n = 62 then 43
  else 47

/-- Modelled from the spec: base64 encoding with `=` padding (the base64
collaborator of §1, out of scope in the source tree). -/

def base64Encode : List Nat → List Nat
  | a :: b :: c :: rest =>
    b64Char (a / 4) :: b64Char ((a % 4) * 16 + b / 16) ::
    b64Char ((b % 16) * 4 + c / 64) :: b64Char (c % 64) :: base64Encode rest
  | [a, b] => [b64Char (a / 4), b64Char ((a % 4) * 16 + b / 16),
      b64Char ((b % 16) * 4), 61]
  | [a] => [b64Char (a / 4), b64Char ((a % 4) * 16), 61, 61]
  | [] => []

/-- The bytes of an ASCII string. -/

def strBytes (s : String) : List Nat := s.toList.map Char.toNat

/-- Modelled from the spec: the RFC 6455 GUID appended to the client key. -/

def wsGuid : List Nat := strBytes "258EAFA5-E914-47DA-95CA-C5AB0DC85B11"

/-- Modelled from the spec: `c_ws_handshake::secret` computes the
Sec-WebSocket-Accept value `base64(SHA1(key || GUID))`. -/

def secret (input : List Nat) : List Nat :=
  base64Encode (sha1 (input ++ wsGuid))

/-! ## HTTP canned response (spec §4.C, `c_http::respond`) -/

/-- Translated from the source: the numeric values of `c_http::e_status_code`
(`src/include/websocket/core/http.h`). -/

def httpStatusCodes : List Nat :=
  [100, 101, 102, 103,
   200, 201, 202, 203, 204, 205, 206, 207, 208, 226,
   300, 301, 302, 303, 304, 305, 307, 308,
   400, 401, 402, 403, 404, 405, 406, 407, 408, 409, 410, 411, 412, 413,
   414, 415, 416, 417, 418, 421, 422, 423, 424, 425, 426, 428, 429, 431, 451,
   500, 501, 502, 503, 504, 505, 506, 507, 508, 510, 511]

/-- Modelled from the spec: the standard reason phrase for each status code
of the enumeration (the source's phrase table is in the missing translation
unit). -/

def reasonPhrase (c : Nat) : String :=
  match c with
  | 100 => "Continue"
  | 101 => "Switching Protocols"
  | 102 => "Processing"
  | 103 => "Early Hints"
  | 200 => "OK"
  | 201 => "Created"
  | 202 => "Accepted"
  | 203 => "Non-Authoritative Information"
  | 204 => "No Content"
  | 205 => "Reset Content"
  | 206 => "Partial Content"
  | 207 => "Multi-Status"
  | 208 => "Already Reported"
  | 226 => "IM Used"
  | 300 => "Multiple Choices"
  | 301 => "Moved Permanently"
  | 302 => "Found"
  | 303 => "See Other"
  | 304 => "Not Modified"
  | 305 => "Use Proxy"
  | 307 => "Temporary Redirect"
  | 308 => "Permanent Redirect"
  | 400 => "Bad Request"
  | 401 => "Unauthorized"
  | 402 => "Payment Required"
  | 403 => "Forbidden"
  | 404 => "Not Found"
  | 405 => "Method Not Allowed"
  | 406 => "Not Acceptable"
  | 407 => "Proxy Authentication Required"
  | 408 => "Request Timeout"
  | 409 => "Conflict"
  | 410 => "Gone"
  | 411 => "Length Required"
  | 412 => "Precondition Failed"
  | 413 => "Payload Too Large"
  | 414 => "URI Too Long"
  | 415 => "Unsupported Media Type"
  | 416 => "Range Not Satisfiable"
  | 417 => "Expectation Failed"
  | 418 => "Im a Teapot"
  | 421 => "Misdirected Request"
  | 422 => "Unprocessable Entity"
  | 423 => "Locked"
  | 424 => "Failed Dependency"
  | 425 => "Too Early"
  | 426 => "Upgrade Required"
  | 428 => "Precondition Required"
  | 429 => "Too Many Requests"
  | 431 => "Request Header Fields Too Large"
  | 451 => "Unavailable For Legal Reasons"
  | 500 => "Internal Server Error"
  | 501 => "Not Implemented"
  | 502 => "Bad Gateway"
  | 503 => "Service Unavailable"
  | 504 => "Gateway Timeout"
  | 505 => "HTTP Version Not Supported"
  | 506 => "Variant Also Negotiates"
  | 507 => "Insufficient Storage"
  | 508 => "Loop Detected"
  | 510 => "Not Extended"
  | 511 => "Network Authentication Required"
  | _ => ""

/-- Decimal ASCII digits of a number, most significant first (fuel-based so
it reduces in the kernel). -/

def digitsLoop : Nat → Nat → List Nat
  | 0, _ => []
  | fuel + 1, n => if n < 10 then [48 + n] else digitsLoop fuel (n / 10) ++ [48 + n % 10]

/-- Decimal ASCII rendering of a number. -/

def natDigits (n : Nat) : List Nat := digitsLoop (n + 1) n

/-- Modelled from the spec: `c_http::respond(code, out)` appends the canned
response to the output stream piece by piece — the fixed prefix, the decimal
code, a space, the reason phrase, then the terminating
`\r\nContent-Length: 0\r\n\r\n`. -/

def respond (c : Nat) (out : List Nat) : List Nat :=
  let o1 := out ++ strBytes "HTTP/1.1 "
  let o2 := o1 ++ natDigits c
  let o3 := o2 ++ [32]
  let o4 := o3 ++ strBytes (reasonPhrase c)
  o4 ++ strBytes "\r\nContent-Length: 0\r\n\r\n"

/-! ## Theorems -/

theorem beBytes_length (k n : Nat) : (beBytes k n).length = k := by
  induction k generalizing n with
  | zero => rfl
  | succ k ih => simp [beBytes, ih]

theorem beVal_append_singleton (bs : List Nat) (d : Nat) :
    beVal (bs ++ [d]) = beVal bs * 256 + d := by
  simp [beVal, List.foldl_append]

theorem beVal_beBytes (k n : Nat) (h : n < 256 ^ k) :
    beVal (beBytes k n) = n := by
  induction k generalizing n with
  | zero =>
    interval_cases n
    rfl
  | succ k ih =>
    rw [beBytes, beVal_append_singleton, ih (n / 256) ?_]
    · omega
    · rw [pow_succ] at h
      exact Nat.div_lt_of_lt_mul (by omega)

theorem maskFrom_length (key i : Nat) (p : List Nat) :
    (maskFrom key i p).length = p.length := by
  induction p generalizing i with
  | nil => rfl
  | cons b rest ih => simp [maskFrom, ih]

theorem maskFrom_maskFrom (key i : Nat) (p : List Nat) :
    maskFrom key i (maskFrom key i p) = p := by
  induction p generalizing i with
  | nil => rfl
  | cons b rest ih =>
    simp [maskFrom, ih, Nat.xor_assoc, Nat.xor_self]

theorem maskPayload_maskPayload (key : Nat) (p : List Nat) :
    maskPayload key (maskPayload key p) = p :=
  maskFrom_maskFrom key 0 p

theorem maskFrom_getD (key i : Nat) (p : List Nat) (j : Nat) :
    (maskFrom key i p).getD j 0 =
      if j < p.length then p.getD j 0 ^^^ keyByte key (i + j) else 0 := by
  induction p generalizing i j with
  | nil => simp [maskFrom]
  | cons b rest ih =>
    cases j with
    | zero => simp [maskFrom]
    | succ j =>
      simp only [maskFrom, List.getD_cons_succ, List.length_cons]
      rw [ih (i + 1) j]
      have harith : i + 1 + j = i + (j + 1) := by omega
      rw [harith]
      simp [Nat.succ_lt_succ_iff]

/-! ### Header-byte extraction lemmas -/

theorem hdrByte0_fin (f : Frame) :
    decide (hdrByte0 f / 128 % 2 = 1) = f.fin := by
  unfold hdrByte0
  cases f.fin <;> cases f.rsv1 <;> cases f.rsv2 <;> cases f.rsv3 <;>
    simp only [cond_true, cond_false, decide_eq_true_eq, decide_eq_false_iff_not] <;>
    omega

theorem hdrByte0_rsv1 (f : Frame) :
    decide (hdrByte0 f / 64 % 2 = 1) = f.rsv1 := by
  unfold hdrByte0
  cases f.fin <;> cases f.rsv1 <;> cases f.rsv2 <;> cases f.rsv3 <;>
    simp only [cond_true, cond_false, decide_eq_true_eq, decide_eq_false_iff_not] <;>
    omega

theorem hdrByte0_rsv2 (f : Frame) :
    decide (hdrByte0 f / 32 % 2 = 1) = f.rsv2 := by
  unfold hdrByte0
  cases f.fin <;> cases f.rsv1 <;> cases f.rsv2 <;> cases f.rsv3 <;>
    simp only [cond_true, cond_false, decide_eq_true_eq, decide_eq_false_iff_not] <;>
    omega

theorem hdrByte0_rsv3 (f : Frame) :
    decide (hdrByte0 f / 16 % 2 = 1) = f.rsv3 := by
  unfold hdrByte0
  cases f.fin <;> cases f.rsv1 <;> cases f.rsv2 <;> cases f.rsv3 <;>
    simp only [cond_true, cond_false, decide_eq_true_eq, decide_eq_false_iff_not] <;>
    omega

theorem hdrByte0_opcode (f : Frame) (hop : f.opcode < 16) :
    hdrByte0 f % 16 = f.opcode := by
  unfold hdrByte0
  cases f.fin <;> cases f.rsv1 <;> cases f.rsv2 <;> cases f.rsv3 <;>
    simp only [cond_true, cond_false] <;> omega

theorem lenFields_fst_lt (n : Nat) : (lenFields n).1 < 128 := by
  unfold lenFields
  split
  · omega
  · split <;> simp

theorem hdrByte1_masked (f : Frame) :
    decide (hdrByte1 f / 128 % 2 = 1) = f.masked := by
  unfold hdrByte1
  have h := lenFields_fst_lt f.payload.length
  cases f.masked <;>
    simp only [cond_true, cond_false, decide_eq_true_eq, decide_eq_false_iff_not] <;>
    omega

theorem hdrByte1_len7 (f : Frame) :
    hdrByte1 f % 128 = (lenFields f.payload.length).1 := by
  unfold hdrByte1
  have h := lenFields_fst_lt f.payload.length
  cases f.masked <;> simp only [cond_true, cond_false] <;> omega

theorem beBytes_two (n : Nat) :
    beBytes 2 n = [n / 256 % 256, n % 256] := by
  simp [beBytes, Nat.div_div_eq_div_mul]

theorem beBytes_four (n : Nat) :
    beBytes 4 n = [n / 256 ^ 3 % 256, n / 256 ^ 2 % 256, n / 256 % 256, n % 256] := by
  simp [beBytes, Nat.div_div_eq_div_mul]

theorem beBytes_eight (n : Nat) :
    beBytes 8 n = [n / 256 ^ 7 % 256, n / 256 ^ 6 % 256, n / 256 ^ 5 % 256,
      n / 256 ^ 4 % 256, n / 256 ^ 3 % 256, n / 256 ^ 2 % 256,
      n / 256 % 256, n % 256] := by
  simp [beBytes, Nat.div_div_eq_div_mul]

theorem parseHeader_write (f : Frame) (hop : f.opcode < 16)
    (hlen : f.payload.length < 2 ^ 63) :
    parseHeader (write f) = .ok (frameHeader f)
      (if f.masked then beBytes 4 f.maskKey ++ maskPayload f.maskKey f.payload
       else f.payload) := by
  have hb0fin := hdrByte0_fin f
  have hb0r1 := hdrByte0_rsv1 f
  have hb0r2 := hdrByte0_rsv2 f
  have hb0r3 := hdrByte0_rsv3 f
  have hb0op := hdrByte0_opcode f hop
  have hb1m := hdrByte1_masked f
  have hb1l := hdrByte1_len7 f
  set tail := (if f.masked then beBytes 4 f.maskKey ++ maskPayload f.maskKey f.payload
    else f.payload) with htail
  rw [write, ← htail, parseHeader]
  rw [if_neg (by simp)]
  have hg0 : ∀ (a b : Nat) (l m : List Nat), ((a :: b :: l) ++ m).getD 0 0 = a :=
    fun _ _ _ _ => rfl
  have hg1 : ∀ (a b : Nat) (l m : List Nat), ((a :: b :: l) ++ m).getD 1 0 = b :=
    fun _ _ _ _ => rfl
  have hd2 : ∀ (a b : Nat) (l m : List Nat), ((a :: b :: l) ++ m).drop 2 = l ++ m :=
    fun _ _ _ _ => rfl
  simp only [hg0, hg1, hd2]
  by_cases h1 : f.payload.length < 126
  · have hlf : lenFields f.payload.length = (f.payload.length, []) := by
      simp [lenFields, h1]
    rw [hlf] at hb1l
    rw [hb1l, if_pos h1]
    rw [hb0fin, hb0r1, hb0r2, hb0r3, hb0op, hb1m, hlf]
    rfl
  · by_cases h2 : f.payload.length ≤ 0xFFFF
    · have hlf : lenFields f.payload.length = (126, beBytes 2 f.payload.length) := by
        simp [lenFields, h1, h2]
      rw [hlf] at hb1l
      rw [hb1l, if_neg (by omega), if_pos rfl, hlf]
      have hl2 : (beBytes 2 f.payload.length).length = 2 := beBytes_length 2 _
      rw [if_neg (by simp [hl2])]
      rw [List.take_left' hl2, List.drop_left' hl2]
      rw [hb0fin, hb0r1, hb0r2, hb0r3, hb0op, hb1m]
      rw [beVal_beBytes 2 f.payload.length (by norm_num; omega)]
      rfl
    · have hlf : lenFields f.payload.length = (127, beBytes 8 f.payload.length) := by
        simp [lenFields, h1, h2]
      rw [hlf] at hb1l
      rw [hb1l, if_neg (by omega), if_neg (by omega), hlf]
      have hl8 : (beBytes 8 f.payload.length).length = 8 := beBytes_length 8 _
      rw [if_neg (by simp [hl8])]
      have hx0 : ((beBytes 8 f.payload.length ++ tail).getD 0 0) =
          f.payload.length / 256 ^ 7 % 256 := by
        rw [beBytes_eight]
        rfl
      rw [hx0]
      have hhi : f.payload.length / 256 ^ 7 % 256 < 128 := by
        have h4 : f.payload.length / 256 ^ 7 < 128 := by
          apply Nat.div_lt_of_lt_mul
          calc f.payload.length < 2 ^ 63 := hlen
          _ ≤ 256 ^ 7 * 128 := by norm_num
        omega
      rw [if_neg (by omega)]
      rw [List.take_left' hl8, List.drop_left' hl8]
      rw [hb0fin, hb0r1, hb0r2, hb0r3, hb0op, hb1m]
      rw [beVal_beBytes 8 f.payload.length (by norm_num; omega)]
      rfl

theorem readPayload_write (f : Frame) (hkey : f.maskKey < 2 ^ 32) :
    readPayload (frameHeader f)
      (if f.masked then beBytes 4 f.maskKey ++ maskPayload f.maskKey f.payload
       else f.payload) =
    .ok { f with maskKey := cond f.masked f.maskKey 0 } [] := by
  obtain ⟨fin, r1, r2, r3, op, m, key, p⟩ := f
  dsimp only at hkey ⊢
  cases m with
  | false =>
    show readPayload ⟨fin, r1, r2, r3, op, false, p.length⟩ p = _
    rw [readPayload]
    dsimp only
    rw [if_neg (by simp), if_neg (by omega), List.take_length, List.drop_length]
    rfl
  | true =>
    show readPayload ⟨fin, r1, r2, r3, op, true, p.length⟩
      (beBytes 4 key ++ maskPayload key p) = _
    have hl4 : (beBytes 4 key).length = 4 := beBytes_length 4 _
    have hrl : (maskPayload key p).length = p.length := maskFrom_length key 0 p
    rw [readPayload]
    dsimp only
    rw [if_pos rfl]
    rw [if_neg (by simp [hl4, hrl])]
    rw [List.take_left' hl4, List.drop_left' hl4]
    rw [beVal_beBytes 4 key (by norm_num; omega)]
    have htake : (maskPayload key p).take p.length = maskPayload key p := by
      rw [← hrl, List.take_length]
    have hdrop : (maskPayload key p).drop p.length = [] := by
      rw [← hrl, List.drop_length]
    rw [htake, hdrop, maskPayload_maskPayload]
    rfl

theorem read_write (f : Frame) (hop : f.opcode < 16) (hkey : f.maskKey < 2 ^ 32)
    (hlen : f.payload.length < 2 ^ 63) :
    read (write f) = .ok { f with maskKey := cond f.masked f.maskKey 0 } [] := by
  rw [read, parseHeader_write f hop hlen]
  exact readPayload_write f hkey

theorem readPayload_short (h : Header) (rest : List Nat)
    (hshort : rest.length < (cond h.masked 4 0) + h.len) :
    readPayload h rest = .incomplete := by
  obtain ⟨fin, r1, r2, r3, op, m, len⟩ := h
  dsimp only at hshort ⊢
  cases m with
  | false =>
    rw [readPayload]
    dsimp only
    rw [if_neg (by simp), if_pos (by simpa using hshort)]
  | true =>
    rw [readPayload]
    dsimp only
    rw [if_pos rfl, if_pos (by simpa using hshort)]

theorem read_of_parseHeader_incomplete (input : List Nat)
    (h : parseHeader input = .incomplete) : read input = .incomplete := by
  rw [read, h]

theorem read_of_parseHeader_ok (input : List Nat) (h : Header) (rest : List Nat)
    (hp : parseHeader input = .ok h rest) : read input = readPayload h rest := by
  rw [read, hp]

/-! ## Claim theorems for the frame codec -/

/-- C1: for every frame with masking enabled (any opcode, FIN/RSV flags and
payload), decoding the byte sequence produced by encoding it
(`c_ws_frame::write` followed by `c_ws_frame::read`) yields the frame back,
equal in all attributes (in particular equal in everything but the mask-key
choice), consuming the whole encoding. -/

theorem claim_C1_roundtrip (f : Frame) (hm : f.masked = true)
    (hop : f.opcode < 16) (hkey : f.maskKey < 2 ^ 32)
    (hlen : f.payload.length < 2 ^ 63) :
    read (write f) = .ok f [] := by
  rw [read_write f hop hkey hlen, hm]
  obtain ⟨fin, r1, r2, r3, op, m, key, p⟩ := f
  have hm2 : m = true := hm
  subst hm2
  rfl

/-- C1 witness: the roundtrip theorem applied to a concrete masked text
frame. -/

theorem claim_C1_roundtrip_witness :
    (⟨true, false, false, false, 1, true, 939139389, [72, 101, 108, 108, 111]⟩ :
      Frame).masked = true ∧
    read (write ⟨true, false, false, false, 1, true, 939139389,
      [72, 101, 108, 108, 111]⟩) =
      .ok ⟨true, false, false, false, 1, true, 939139389,
        [72, 101, 108, 108, 111]⟩ [] :=
  ⟨by decide, claim_C1_roundtrip _ (by decide) (by decide) (by decide) (by decide)⟩

/-- C2: masking with a 32-bit key is an involution on every payload, and a
single application of `c_ws_frame::mask` XORs byte `i` of the payload with
byte `i mod 4` of the key. -/

theorem claim_C2_mask_involution (p : List Nat) (key i : Nat) (hi : i < p.length) :
    maskPayload key (maskPayload key p) = p ∧
    (maskPayload key p).getD i 0 = p.getD i 0 ^^^ keyByte key i := by
  refine ⟨maskPayload_maskPayload key p, ?_⟩
  have h := maskFrom_getD key 0 p i
  rw [maskPayload, h, if_pos hi, Nat.zero_add]

/-- C2 witness: the involution and XOR law at a concrete payload, key and
index. -/

theorem claim_C2_mask_involution_witness :
    (4 : Nat) < ([10, 20, 30, 40, 50] : List Nat).length ∧
    (maskPayload 939139389 (maskPayload 939139389 [10, 20, 30, 40, 50]) =
        [10, 20, 30, 40, 50] ∧
      (maskPayload 939139389 [10, 20, 30, 40, 50]).getD 4 0 =
        ([10, 20, 30, 40, 50] : List Nat).getD 4 0 ^^^ keyByte 939139389 4) :=
  ⟨by decide, claim_C2_mask_involution [10, 20, 30, 40, 50] 939139389 4 (by decide)⟩

/-- C5: `c_ws_frame::read` returns `status_incomplete` (consuming nothing)
whenever the input holds fewer than 2 bytes, or fewer extended-length bytes
than the 126/127 length encodings require, or fewer bytes than the mask key
plus the declared payload length need; and decoding succeeds for an input
containing an entire frame. -/

theorem claim_C5_incomplete (input : List Nat) :
    (input.length < 2 → read input = .incomplete) ∧
    (∀ b0 b1 rest, input = b0 :: b1 :: rest → b1 % 128 = 126 →
      rest.length < 2 → read input = .incomplete) ∧
    (∀ b0 b1 rest, input = b0 :: b1 :: rest → b1 % 128 = 127 →
      rest.length < 8 → read input = .incomplete) ∧
    (∀ h rest, parseHeader input = .ok h rest →
      rest.length < (cond h.masked 4 0) + h.len → read input = .incomplete) ∧
    (∃ f, read [129, 1, 65] = .ok f []) := by
  have hg0 : ∀ (a b : Nat) (l : List Nat), (a :: b :: l).getD 0 0 = a :=
    fun _ _ _ => rfl
  have hg1 : ∀ (a b : Nat) (l : List Nat), (a :: b :: l).getD 1 0 = b :=
    fun _ _ _ => rfl
  have hd2 : ∀ (a b : Nat) (l : List Nat), (a :: b :: l).drop 2 = l :=
    fun _ _ _ => rfl
  refine ⟨?_, ?_, ?_, ?_, ?_⟩
  · intro hlt
    apply read_of_parseHeader_incomplete
    rw [parseHeader, if_pos hlt]
  · rintro b0 b1 rest rfl h126 hshort
    apply read_of_parseHeader_incomplete
    rw [parseHeader]
    rw [if_neg (by simp only [List.length_cons]; omega)]
    simp only [hg0, hg1, hd2]
    rw [if_neg (by omega), if_pos h126, if_pos hshort]
  · rintro b0 b1 rest rfl h127 hshort
    apply read_of_parseHeader_incomplete
    rw [parseHeader]
    rw [if_neg (by simp only [List.length_cons]; omega)]
    simp only [hg0, hg1, hd2]
    rw [if_neg (by omega), if_neg (by omega), if_pos hshort]
  · intro h rest hp hshort
    rw [read_of_parseHeader_ok input h rest hp]
    exact readPayload_short h rest hshort
  · exact ⟨⟨true, false, false, false, 1, false, 0, [65]⟩, by decide⟩

/-- C5 witness: the incompleteness theorem applied to concrete truncated
inputs. -/

theorem claim_C5_incomplete_witness :
    read [129] = .incomplete ∧ read [129, 254, 0] = .incomplete ∧
    read [129, 255, 0, 0, 0, 0, 0, 0, 0] = .incomplete ∧
    read [129, 131, 1, 2, 3, 4, 9] = .incomplete := by
  refine ⟨?_, ?_, ?_, ?_⟩
  · exact (claim_C5_incomplete [129]).1 (by decide)
  · exact (claim_C5_incomplete [129, 254, 0]).2.1 129 254 [0] rfl (by decide) (by decide)
  · exact (claim_C5_incomplete [129, 255, 0, 0, 0, 0, 0, 0, 0]).2.2.1 129 255
      [0, 0, 0, 0, 0, 0, 0] rfl (by decide) (by decide)
  · exact (claim_C5_incomplete [129, 131, 1, 2, 3, 4, 9]).2.2.2.1
      ⟨true, false, false, false, 1, true, 3⟩ [1, 2, 3, 4, 9] (by decide) (by decide)

/-- C9: `ws_settings_init` establishes the documented defaults for every
settings record: 4 MiB `message_limit`, `auto_mask_frame` on, server
endpoint, unsecured mode, zero timeouts, null string fields, zero
`fd_limit`, 60000 ms `ping_interval`, 30000 ms `ping_timeout`, and
permessage-deflate disabled with window bits 15. -/

theorem claim_C9_settings_defaults (s : ws_settings_t) :
    (ws_settings_init s).message_limit = 4 * 1024 * 1024 ∧
    (ws_settings_init s).auto_mask_frame = true ∧
    (ws_settings_init s).endpoint = .endpoint_server ∧
    (ws_settings_init s).mode = .mode_unsecured ∧
    (ws_settings_init s).read_timeout = 0 ∧
    (ws_settings_init s).poll_timeout = 0 ∧
    (ws_settings_init s).ssl_seed = none ∧
    (ws_settings_init s).ssl_ca_cert = none ∧
    (ws_settings_init s).ssl_own_cert = none ∧
    (ws_settings_init s).ssl_private_key = none ∧
    (ws_settings_init s).fd_limit = 0 ∧
    (ws_settings_init s).host = none ∧
    (ws_settings_init s).allowed_origin = none ∧
    (ws_settings_init s).ping_interval = 60000 ∧
    (ws_settings_init s).ping_timeout = 30000 ∧
    (ws_settings_init s).extensions.permessage_deflate.enabled = false ∧
    (ws_settings_init s).extensions.permessage_deflate.window_bits = 15 := by
  refine ⟨rfl, rfl, rfl, rfl, rfl, rfl, rfl, rfl, rfl, rfl, rfl, rfl, rfl,
    by norm_num [ws_settings_init], by norm_num [ws_settings_init],
    rfl, rfl⟩

/-- C10: `ws_settings_destroy` nulls exactly the six pointer fields, leaves
every other field unchanged, and is idempotent. -/

theorem claim_C10_settings_destroy (s : ws_settings_t) :
    (ws_settings_destroy s).ssl_seed = none ∧
    (ws_settings_destroy s).ssl_ca_cert = none ∧
    (ws_settings_destroy s).ssl_own_cert = none ∧
    (ws_settings_destroy s).ssl_private_key = none ∧
    (ws_settings_destroy s).host = none ∧
    (ws_settings_destroy s).allowed_origin = none ∧
    (ws_settings_destroy s).endpoint = s.endpoint ∧
    (ws_settings_destroy s).mode = s.mode ∧
    (ws_settings_destroy s).read_timeout = s.read_timeout ∧
    (ws_settings_destroy s).poll_timeout = s.poll_timeout ∧
    (ws_settings_destroy s).fd_limit = s.fd_limit ∧
    (ws_settings_destroy s).ping_interval = s.ping_interval ∧
    (ws_settings_destroy s).ping_timeout = s.ping_timeout ∧
    (ws_settings_destroy s).message_limit = s.message_limit ∧
    (ws_settings_destroy s).auto_mask_frame = s.auto_mask_frame ∧
    (ws_settings_destroy s).extensions = s.extensions ∧
    ws_settings_destroy (ws_settings_destroy s) = ws_settings_destroy s := by
  refine ⟨rfl, rfl, rfl, rfl, rfl, rfl, rfl, rfl, rfl, rfl, rfl, rfl, rfl,
    rfl, rfl, rfl, rfl⟩

/-- C4: a reassembled text message (first-frame opcode `text`, RSV1 clear)
whose payload is not valid UTF-8 closes the connection with status 1007 and
is never delivered to `on_frame`; in particular the overlong encoding
`0xC0 0xAF` does so. -/

theorem claim_C4_utf8_close_1007 (p : List Nat) (hbad : utf8Valid p = false) :
    finishMessage 1 false p = .close 1007 ∧
    (∀ op q, finishMessage 1 false p ≠ .frame op q) ∧
    utf8Valid [0xC0, 0xAF] = false ∧
    finishMessage 1 false [0xC0, 0xAF] = .close 1007 := by
  have hc : finishMessage 1 false p = .close 1007 := by
    rw [finishMessage]
    simp [hbad]
  refine ⟨hc, ?_, by decide, by decide⟩
  intro op q
  rw [hc]
  intro hcontra
  cases hcontra

/-- C4 witness: the theorem applied to the concrete payload `0xC0 0xAF`. -/

theorem claim_C4_utf8_close_1007_witness :
    utf8Valid [0xC0, 0xAF] = false ∧
    (finishMessage 1 false [0xC0, 0xAF] = .close 1007 ∧
      (∀ op q, finishMessage 1 false [0xC0, 0xAF] ≠ .frame op q) ∧
      utf8Valid [0xC0, 0xAF] = false ∧
      finishMessage 1 false [0xC0, 0xAF] = .close 1007) :=
  ⟨by decide, claim_C4_utf8_close_1007 [0xC0, 0xAF] (by decide)⟩

theorem scanFrom_not_found (v e : Nat) (l : List Nat) (i : Nat)
    (h : ∀ j, j < l.length → i + j < e → l.getD j 0 ≠ v) :
    scanFrom v e l i = npos := by
  induction l generalizing i with
  | nil => rfl
  | cons b rest ih =>
    rw [scanFrom]
    by_cases hie : e ≤ i
    · rw [if_pos hie]
    · rw [if_neg hie]
      rw [if_neg (by
        have hb := h 0 (by simp) (by omega)
        simpa using hb)]
      exact ih (i + 1) (fun j hj hje => by
        have hj2 := h (j + 1) (by simpa using Nat.succ_lt_succ hj) (by omega)
        simpa using hj2)

theorem scanBackFrom_not_found (v e : Nat) (l : List Nat) (i best : Nat)
    (h : ∀ j, j < l.length → i + j < e → l.getD j 0 ≠ v) :
    scanBackFrom v e l i best = best := by
  induction l generalizing i best with
  | nil => rfl
  | cons b rest ih =>
    rw [scanBackFrom]
    by_cases hie : e ≤ i
    · rw [if_pos hie]
    · rw [if_neg hie]
      rw [if_neg (by
        have hb := h 0 (by simp) (by omega)
        simpa using hb)]
      exact ih (i + 1) best (fun j hj hje => by
        have hj2 := h (j + 1) (by simpa using Nat.succ_lt_succ hj) (by omega)
        simpa using hj2)

theorem getD_drop (s : List Nat) (off j : Nat) :
    (s.drop off).getD j 0 = s.getD (off + j) 0 := by
  simp [List.getD, List.getElem?_drop]

/-- C6: each of `pull`, `pull_back`, `pop` and `pop_back` shrinks the stream
by exactly the number of bytes it reports removed, and a lookup over a range
holding no occurrence of the sought byte returns the sentinel `npos` (for
both `index_of` and `index_of_back`). -/

theorem claim_C6_stream_invariants (s : List Nat) (n off e v : Nat)
    (hoff : off ≤ s.length)
    (hnf : ∀ j, off ≤ j → j < min e s.length → s.getD j 0 ≠ v) :
    s.length = (pull s n off).2.length + (pull s n off).1.length ∧
    s.length = (pull_back s n off).2.length + (pull_back s n off).1.length ∧
    s.length = (pop s n).1.length + (pop s n).2 ∧
    s.length = (pop_back s n).1.length + (pop_back s n).2 ∧
    index_of s v off e = npos ∧
    index_of_back s v off e = npos := by
  refine ⟨?_, ?_, ?_, ?_, ?_, ?_⟩
  · simp only [pull, List.length_append, List.length_take, List.length_drop]
    omega
  · simp only [pull_back, pull, List.length_reverse, List.length_append,
      List.length_take, List.length_drop]
    omega
  · simp only [pop, List.length_drop]
    omega
  · simp only [pop_back, List.length_take]
    omega
  · apply scanFrom_not_found
    intro j hj hje
    rw [getD_drop]
    exact hnf (off + j) (by omega) (by omega)
  · apply scanBackFrom_not_found
    intro j hj hje
    rw [getD_drop]
    exact hnf (off + j) (by omega) (by omega)

/-- C6 witness: the stream invariants at a concrete stream, count, offset,
bound and absent byte value. -/

theorem claim_C6_stream_invariants_witness :
    ([1, 2, 3] : List Nat).length =
      (pull [1, 2, 3] 2 1).2.length + (pull [1, 2, 3] 2 1).1.length ∧
    ([1, 2, 3] : List Nat).length =
      (pull_back [1, 2, 3] 2 1).2.length + (pull_back [1, 2, 3] 2 1).1.length ∧
    ([1, 2, 3] : List Nat).length = (pop [1, 2, 3] 2).1.length + (pop [1, 2, 3] 2).2 ∧
    ([1, 2, 3] : List Nat).length =
      (pop_back [1, 2, 3] 2).1.length + (pop_back [1, 2, 3] 2).2 ∧
    index_of [1, 2, 3] 9 1 3 = npos ∧
    index_of_back [1, 2, 3] 9 1 3 = npos :=
  claim_C6_stream_invariants [1, 2, 3] 2 1 3 9 (by decide) (by decide)

theorem connStep_not_from_closed {evs : List Ev} {t : ConnState} :
    ¬ connStep .closedSt evs t := by
  intro h
  cases h

theorem connTrace_from_closed {evs : List Ev} {t : ConnState}
    (h : connTrace .closedSt evs t) : evs = [] ∧ t = .closedSt := by
  cases h with
  | refl => exact ⟨rfl, rfl⟩
  | step hstep _ => exact absurd hstep connStep_not_from_closed

theorem connStep_close_events {s t : ConnState} {evs : List Ev}
    (h : connStep s evs t) :
    (t ≠ .closedSt ∧ countClose evs = 0) ∨
    (t = .closedSt ∧ ∃ pre c, evs = pre ++ [Ev.evClose c] ∧ countClose pre = 0) := by
  cases h with
  | startSend => exact Or.inl ⟨by simp, rfl⟩
  | sendRequest => exact Or.inl ⟨by simp, rfl⟩
  | handshakeOk => exact Or.inl ⟨by simp, rfl⟩
  | handshakeFail c => exact Or.inr ⟨rfl, [.evError], c, rfl, rfl⟩
  | dataFrame => exact Or.inl ⟨by simp, rfl⟩
  | controlFrame => exact Or.inl ⟨by simp, rfl⟩
  | closeStart => exact Or.inl ⟨by simp, rfl⟩
  | heartbeatDead => exact Or.inr ⟨rfl, [], 1006, rfl, rfl⟩
  | closingDone c => exact Or.inr ⟨rfl, [], c, rfl, rfl⟩

theorem countClose_append (l1 l2 : List Ev) :
    countClose (l1 ++ l2) = countClose l1 + countClose l2 := by
  simp [countClose, List.filter_append]

theorem connTrace_close_shape {s t : ConnState} {evs : List Ev}
    (h : connTrace s evs t) (hs : s ≠ .closedSt) :
    (t ≠ .closedSt ∧ countClose evs = 0) ∨
    (t = .closedSt ∧ ∃ pre c, evs = pre ++ [Ev.evClose c] ∧ countClose pre = 0) := by
  induction h with
  | refl s => exact Or.inl ⟨hs, rfl⟩
  | @step s t u evs evs2 hstep htrace ih =>
    rcases connStep_close_events hstep with ⟨htne, hcnt⟩ | ⟨hteq, pre, c, hevs, hpre⟩
    · rcases ih htne with ⟨hune, hcnt2⟩ | ⟨hueq, pre2, c2, hevs2, hpre2⟩
      · exact Or.inl ⟨hune, by rw [countClose_append, hcnt, hcnt2]⟩
      · refine Or.inr ⟨hueq, evs ++ pre2, c2, ?_, ?_⟩
        · rw [hevs2, List.append_assoc]
        · rw [countClose_append, hcnt, hpre2]
    · subst hteq
      obtain ⟨hevs2, hueq⟩ := connTrace_from_closed htrace
      subst hevs2
      refine Or.inr ⟨hueq, pre, c, ?_, hpre⟩
      rw [List.append_nil, hevs]

/-- C7: along any run of a connection from a non-destroyed state, `on_close`
fires at most once; a run that ends with the connection destroyed (CLOSED)
fires `on_close` exactly once, as its final event; and whenever `on_open`
fired during such a run, that single `on_close` comes strictly after it —
so every `on_open` is followed by exactly one `on_close`, no connection
receives `on_close` twice, and no opened connection is destroyed without an
`on_close`. -/

theorem claim_C7_open_close_pairing (s t : ConnState) (evs : List Ev)
    (h : connTrace s evs t) (hs : s ≠ .closedSt) :
    countClose evs ≤ 1 ∧
    (t = .closedSt →
      countClose evs = 1 ∧
      ∃ pre c, evs = pre ++ [Ev.evClose c] ∧ countClose pre = 0 ∧
        (Ev.evOpen ∈ evs → Ev.evOpen ∈ pre)) := by
  rcases connTrace_close_shape h hs with ⟨htne, hcnt⟩ | ⟨hteq, pre, c, hevs, hpre⟩
  · exact ⟨by omega, fun ht => absurd ht htne⟩
  · constructor
    · rw [hevs, countClose_append, hpre]
      rfl
    · intro _
      refine ⟨by rw [hevs, countClose_append, hpre]; rfl, pre, c, hevs, hpre, ?_⟩
      intro hopen
      rw [hevs] at hopen
      rcases List.mem_append.mp hopen with hp | hlast
      · exact hp
      · simp at hlast

/-- C7 witness: the pairing theorem applied to a concrete run — handshake
success, one data frame, the closing handshake, destruction. -/

theorem claim_C7_open_close_pairing_witness :
    countClose ([Ev.evOpen] ++ ([Ev.evFrame] ++ ([] ++ ([Ev.evClose 1000] ++ [])))) ≤ 1 ∧
    (ConnState.closedSt = ConnState.closedSt →
      countClose ([Ev.evOpen] ++ ([Ev.evFrame] ++ ([] ++ ([Ev.evClose 1000] ++ [])))) = 1 ∧
      ∃ pre c, ([Ev.evOpen] ++ ([Ev.evFrame] ++ ([] ++ ([Ev.evClose 1000] ++ [])))) =
          pre ++ [Ev.evClose c] ∧ countClose pre = 0 ∧
        (Ev.evOpen ∈ ([Ev.evOpen] ++ ([Ev.evFrame] ++ ([] ++ ([Ev.evClose 1000] ++ [])))) →
          Ev.evOpen ∈ pre)) :=
  claim_C7_open_close_pairing .handshakeWait .closedSt _
    (connTrace.step connStep.handshakeOk
      (connTrace.step connStep.dataFrame
        (connTrace.step connStep.closeStart
          (connTrace.step (connStep.closingDone 1000) (connTrace.refl _)))))
    (by decide)

set_option maxRecDepth 4000 in

/-- C3: `c_ws_handshake::secret` is `base64(SHA1(key || GUID))`, and on the
RFC 6455 sample key `dGhlIHNhbXBsZSBub25jZQ==` it produces
`s3pPLMBiTxaQ9kYGzzhZRbK+xOo=`. -/

theorem claim_C3_handshake_secret :
    (∀ key : List Nat, secret key = base64Encode (sha1 (key ++ wsGuid))) ∧
    secret (strBytes "dGhlIHNhbXBsZSBub25jZQ==") =
      strBytes "s3pPLMBiTxaQ9kYGzzhZRbK+xOo=" :=
  ⟨fun _ => rfl, by decide⟩

/-- C8: for every status code of the enumeration, `c_http::respond` appends
to the output stream exactly the bytes of
`HTTP/1.1 <code> <reason>\r\nContent-Length: 0\r\n\r\n` and nothing
else. -/

theorem claim_C8_respond (c : Nat) (hc : c ∈ httpStatusCodes) (out : List Nat) :
    respond c out = out ++ strBytes ("HTTP/1.1 " ++ Nat.repr c ++ " " ++
      reasonPhrase c ++ "\r\nContent-Length: 0\r\n\r\n") := by
  have happ : ∀ out2 : List Nat, respond c out2 = out2 ++ respond c [] := by
    intro out2
    simp [respond, List.append_assoc]
  have hbody : ∀ x ∈ httpStatusCodes, respond x [] =
      strBytes ("HTTP/1.1 " ++ Nat.repr x ++ " " ++ reasonPhrase x ++
        "\r\nContent-Length: 0\r\n\r\n") := by decide
  rw [happ, hbody c hc]

/-- C8 witness: the response shape at status 101 appended to a nonempty
stream. -/

theorem claim_C8_respond_witness :
    (101 ∈ httpStatusCodes) ∧
    respond 101 [7] = [7] ++ strBytes ("HTTP/1.1 " ++ Nat.repr 101 ++ " " ++
      reasonPhrase 101 ++ "\r\nContent-Length: 0\r\n\r\n") :=
  ⟨by decide, claim_C8_respond 101 (by decide) [7]⟩

end WsProof
